import Mathlib

/-
Shallow embedding of the flowevents publish/subscribe core
(src/flowevents/publishers/publisher.py, src/flowevents/publishers/multi.py,
src/flowevents/subscribers/subscriptions.py, src/flowevents/subscribers/multi.py)
together with theorems settling the frozen specification claims.

Modelling conventions:
- Python objects are identified by numeric object ids (Nat); the missing
  modules publications.py, subscriber.py and functional.py only contribute
  plain record/identity behaviour, which is modelled from the spec where
  needed (see the doc comments).
- A weak reference is modelled by the object id of its referent together
  with a global alive set (ids whose referent still has a strong reference).
  Dereferencing a weak reference yields the referent exactly when its id is
  in the alive set.
- isinstance(x, C) is modelled by membership of the class id C in the list
  of class ids of x (its method resolution order).
- random.random() draws are passed in explicitly as rational numbers.
- A raised Python exception is an `Except.error` carrying the message.
-/

namespace FlowEvents

/-- Runtime tag values: an enum member, an int, or any other hashable object
(identified by object id, carrying its `str` representation). Mirrors the
`isinstance(tag, Enum | int)` discrimination in subscriptions.py. -/
inductive TagValue where
  | enumTag (str : String)
  | intTag (val : Int)
  | otherTag (oid : Nat) (str : String)
deriving DecidableEq, Repr

/-- Python `str(tag)`: enum members print as `Class.MEMBER` (carried verbatim),
ints print in decimal, other objects print their own repr. -/
def TagValue.pyStr : TagValue → String
  | .enumTag s => s
  | .intTag v => toString v
  | .otherTag _ s => s

/-- A Python runtime value, reduced to what the embedded code inspects:
its object id and the class ids it is an instance of (its MRO). -/
structure PyObj where
  oid : Nat
  classes : List Nat
deriving DecidableEq, Repr

/-- isinstance(o, cls) for a class id. -/
def pyIsinstance (o : PyObj) (cls : Nat) : Bool :=
  o.classes.contains cls

/-- Modelled from the spec: EventPublication (publications.py is not under
src/). The spec data model gives `Publication: {tag: TagValue,
payload_type: TypeRef}`, immutable; publisher.py reads the two fields as
`event_tag` and `event_class`. -/
structure EventPublication where
  event_tag : TagValue
  event_class : Nat
deriving DecidableEq, Repr

namespace EventPublisher

/-- ADD_LISTENER_GC_PROBABILITY = 0.005 (publisher.py line 19), as the exact
rational 1/200. -/
def ADD_LISTENER_GC_PROBABILITY : ℚ :=
  ⟨1, 200, by norm_num, Nat.coprime_one_left 200⟩

/-- State of one EventPublisher: its publication, the set of weak references
to listeners (`self._listeners`, kept as a list of referent object ids in
insertion order, duplicate-free because identical weak references collapse
under set semantics), the portion of the heap it can observe (`alive`: the
ids whose referent has not been collected), and the diagnostic records
emitted so far by `_log_exception` (one event tag per record). -/
structure State where
  publication : EventPublication
  listeners : List Nat
  alive : List Nat
  log : List TagValue
deriving DecidableEq, Repr

/-- _remove_dead_listeners (publisher.py lines 91-94):
`self._listeners = {ref for ref in self._listeners if ref() is not None}`. -/
def _remove_dead_listeners (s : State) : State :=
  { s with listeners := s.listeners.filter (fun r => s.alive.contains r) }

/-- Set insertion for `self._listeners.add(listener_ref)`: weak references to
the same live object compare equal, so adding an already present reference is
a no-op; otherwise the reference is a new set element. -/
def setAdd (xs : List Nat) (x : Nat) : List Nat :=
  if xs.contains x then xs else xs ++ [x]

/-- add_listener (publisher.py lines 36-44): add a weak reference to the
listener, then with probability ADD_LISTENER_GC_PROBABILITY (the drawn
`rand` below the constant) run _remove_dead_listeners. -/
def add_listener (s : State) (l : Nat) (rand : ℚ) : State :=
  let s1 := { s with listeners := setAdd s.listeners l }
  if rand < ADD_LISTENER_GC_PROBABILITY then _remove_dead_listeners s1 else s1

/-- remove_listener (publisher.py lines 46-55): discard the weak reference
whose referent is `l`, then always run _remove_dead_listeners. -/
def remove_listener (s : State) (l : Nat) : State :=
  _remove_dead_listeners { s with listeners := s.listeners.erase l }

/-- get_listeners (publisher.py lines 57-66): run _remove_dead_listeners,
then return the listeners that dereference to a live object. -/
def get_listeners (s : State) : List Nat × State :=
  let s1 := _remove_dead_listeners s
  (s1.listeners.filter (fun r => s1.alive.contains r), s1)

/-- Behaviour of one listener invocation during dispatch: whether its body
raises, which add_listener / remove_listener calls it performs on the same
publisher (each add with its own random draw), and which listener referents
lose their last strong reference during the call. -/
structure ListenerAct where
  raises : Bool
  addL : List (Nat × ℚ)
  removeL : List Nat
  kills : List Nat
deriving Repr

/-- Apply the side effects of one listener invocation to the publisher
state: its add_listener calls, its remove_listener calls, then the referents
it caused to be collected drop out of the alive set. -/
def applyAct (s : State) (a : ListenerAct) : State :=
  let s1 := a.addL.foldl (fun st p => add_listener st p.1 p.2) s
  let s2 := a.removeL.foldl remove_listener s1
  { s2 with alive := s2.alive.filter (fun x => !(a.kills.contains x)) }

/-- One iteration of the dispatch loop of trigger_event (publisher.py lines
81-89): dereference the weak reference; if dead, continue; otherwise invoke
the listener (recording it in the invocation list), apply its side effects,
and if it raised, catch the exception and append one diagnostic record via
_log_exception (publisher.py lines 96-101, which logs the publication tag). -/
def dispatchStep (env : Nat → ListenerAct) (acc : State × List Nat) (lid : Nat) :
    State × List Nat :=
  let s := acc.1
  if s.alive.contains lid then
    let a := env lid
    let s1 := applyAct s a
    let s2 := if a.raises then { s1 with log := s1.log ++ [s1.publication.event_tag] } else s1
    (s2, acc.2 ++ [lid])
  else acc

/-- trigger_event (publisher.py lines 68-89): validate the payload type
(raise ValueError "Invalid event type: ..." before anything else), run
_remove_dead_listeners, copy the listener set, then dispatch to the copy.
Returns the final state and the list of listeners actually invoked. -/
def trigger_event (s : State) (message : PyObj) (env : Nat → ListenerAct) :
    Except String (State × List Nat) :=
  if !(pyIsinstance message s.publication.event_class) then
    .error "Invalid event type"
  else
    let s1 := _remove_dead_listeners s
    let listeners := s1.listeners
    .ok (listeners.foldl (dispatchStep env) (s1, []))

/-- Listeners invoked by a trigger_event result ([] when it raised). -/
def invokedOf (r : Except String (State × List Nat)) : List Nat :=
  match r with
  | .ok (_, inv) => inv
  | .error _ => []

/-- Alive set after the side effects of the invocation of listener `l`:
only the kills performed by the listener change it. -/
def aliveAfter (env : Nat → ListenerAct) (l : Nat) (alive : List Nat) : List Nat :=
  alive.filter (fun x => !((env l).kills.contains x))

/-- The listeners of a snapshot that actually get invoked, given the alive
set at the start of dispatch: each snapshot entry is invoked exactly when
its referent is alive at its turn. -/
def runAlive (env : Nat → ListenerAct) : List Nat → List Nat → List Nat
  | _, [] => []
  | alive, l :: ls =>
    if alive.contains l then l :: runAlive env (aliveAfter env l alive) ls
    else runAlive env alive ls

/-- Alive set at the end of a dispatch over a snapshot. -/
def aliveChain (env : Nat → ListenerAct) : List Nat → List Nat → List Nat
  | alive, [] => alive
  | alive, l :: ls =>
    if alive.contains l then aliveChain env (aliveAfter env l alive) ls
    else aliveChain env alive ls

/-- A state with no dead entries: every weak reference in the listener set
dereferences to a live object. -/
def noDead (s : State) : Prop := ∀ r ∈ s.listeners, r ∈ s.alive

end EventPublisher

open EventPublisher

/-- Concrete instance for the C1 witness: a publication with int tag 1 and
payload class 10, listeners 5 (raising) and 6 (well behaved). -/
def c1S : State := ⟨⟨.intTag 1, 10⟩, [5, 6], [5, 6], []⟩

def c1Msg : PyObj := ⟨0, [10]⟩

def c1Env : Nat → ListenerAct := fun n =>
  if n = 5 then ⟨true, [], [], []⟩ else ⟨false, [], [], []⟩

def c2S : State := ⟨⟨.intTag 1, 10⟩, [5], [5], []⟩

def c2Msg : PyObj := ⟨0, [99]⟩

def c2Env : Nat → ListenerAct := fun _ => ⟨false, [], [], []⟩

/-- Concrete instance for the C3 witness: listener 1 removes listener 2 from
the same publisher during its own invocation; listener 2 still receives the
event in flight. -/
def c3S : State := ⟨⟨.intTag 1, 10⟩, [1, 2], [1, 2], []⟩

def c3Msg : PyObj := ⟨0, [10]⟩

def c3Env : Nat → ListenerAct := fun n =>
  if n = 1 then ⟨false, [], [2], []⟩ else ⟨false, [], [], []⟩

/-- Concrete instance refuting the post-trigger sweep of C4: listener 1
drops the last strong reference to listener 2 during dispatch; after
trigger_event returns, the dead reference 2 is still in the listener set. -/
def c4S : State := ⟨⟨.intTag 1, 0⟩, [1, 2], [1, 2], []⟩

def c4Msg : PyObj := ⟨0, [0]⟩

def c4Env : Nat → ListenerAct := fun n =>
  if n = 1 then ⟨false, [], [], [2]⟩ else ⟨false, [], [], []⟩

def c4S1 : State := ⟨⟨.intTag 1, 0⟩, [1, 2], [1], []⟩

/-- Python string comparison: lexicographic on the code points, shorter
string first on a tie. This is what `sorted` on a list of strings uses. -/
def lexLe : List Char → List Char → Bool
  | [], _ => true
  | _ :: _, [] => false
  | a :: as, b :: bs =>
    if a < b then true
    else if b < a then false
    else lexLe as bs

/-- The sort order used for the canonical tag string. -/
def strLe (a b : String) : Prop := lexLe a.data b.data = true

instance : DecidableRel strLe := fun _ _ => instDecidableEqBool _ _

/-- Tag field of a subscription descriptor: `event_tag: Any | list[Any]`,
discriminated with isinstance(event_tag, list). -/
inductive EventTagField where
  | single (t : TagValue)
  | multi (ts : List TagValue)
deriving DecidableEq, Repr

/-- EventSubscription (subscriptions.py lines 12-59): immutable descriptor
with publisher_class (a class, by id), event_tag, callback (a callable, by
object id) and callback_with_subscriber. `oid` is the Python object id of
the descriptor itself: the class defines __hash__ but no __eq__, so the
default identity equality applies. -/
structure EventSubscription where
  oid : Nat
  publisher_class : Nat
  event_tag : EventTagField
  callback : Nat
  callback_with_subscriber : Bool
deriving DecidableEq, Repr

/-- Python equality between descriptors: EventSubscription does not override
__eq__, so `==` falls back to object identity. -/
def pyEqSub (a b : EventSubscription) : Bool := a.oid == b.oid

namespace EventSubscription

/-- event_tag_str (subscriptions.py lines 53-59): str(event_tag) for a
single tag; for a list, the sorted str forms joined with ", " inside
brackets. Python sorted over a total order returns the unique ascending
permutation, modelled with insertion sort over strLe. -/
def event_tag_str (d : EventSubscription) : String :=
  match d.event_tag with
  | .single t => t.pyStr
  | .multi ts =>
    "[" ++ String.intercalate ", " (List.insertionSort strLe (ts.map TagValue.pyStr)) ++ "]"

/-- The hash function Python applies to the triple; kept abstract because
hash values of the interpreter are unspecified. -/
def HashFn : Type := Nat × String × Nat → Int

/-- __hash__ (subscriptions.py lines 32-33):
hash((publisher_class, event_tag_str, callback)). -/
def structHash (h : HashFn) (d : EventSubscription) : Int :=
  h (d.publisher_class, event_tag_str d, d.callback)

/-- The tag list of the descriptor:
`tags = event_tag if isinstance(event_tag, list) else [event_tag]`
(subscriptions.py line 80). -/
def tagsOf (d : EventSubscription) : List TagValue :=
  match d.event_tag with
  | .single t => [t]
  | .multi ts => ts

/-- isinstance(tag, Enum | int). -/
def isEnumOrInt : TagValue → Bool
  | .enumTag _ => true
  | .intTag _ => true
  | .otherTag _ _ => false

/-- _get_event_tags (subscriptions.py lines 79-81):
`[tag if isinstance(tag, Enum | int) else hash(self) for tag in tags]`. -/
def _get_event_tags (h : HashFn) (d : EventSubscription) : List TagValue :=
  (tagsOf d).map (fun tag =>
    if isEnumOrInt tag then tag else .intTag (structHash h d))

end EventSubscription

/-- A live publisher instance as seen by a subscription descriptor: its
object id, the class ids it is an instance of, and its EventPublisher
state. -/
structure PublisherObj where
  oid : Nat
  classes : List Nat
  st : EventPublisher.State
deriving Repr

namespace EventSubscription

/-- _subscribe (subscriptions.py lines 83-100): raise ValueError "Publisher
type mismatch" unless the publisher is an instance of publisher_class;
when callback_with_subscriber, raise ValueError "Subscriber is required for
callback with subscriber" on a null subscriber (otherwise the callback is
partially applied to the subscriber, which does not change the identity
bookkeeping modelled here). Then construct a fresh FunctionalEventSubscriber
(modelled from the spec as a new listener object with id `freshId`, strongly
held by the returned handle, hence alive) and register it with
publisher.add_listener, whose internal random draw is `rand`. -/
def _subscribe (d : EventSubscription) (p : PublisherObj) (subscriber : Option Nat)
    (freshId : Nat) (rand : ℚ) : Except String (Nat × PublisherObj) :=
  if !(p.classes.contains d.publisher_class) then
    .error "Publisher type mismatch"
  else
    match d.callback_with_subscriber, subscriber with
    | true, none => .error "Subscriber is required for callback with subscriber"
    | _, _ =>
      let st1 : EventPublisher.State :=
        { p.st with alive := EventPublisher.setAdd p.st.alive freshId }
      .ok (freshId, { p with st := EventPublisher.add_listener st1 freshId rand })

/-- The loop of subscribe (subscriptions.py lines 66-70): one _subscribe per
resolved tag, collecting the created listeners; a raised error propagates.
`fresh` numbers the created listener objects, `i` counts the add_listener
random draws. -/
def subscribeAux (d : EventSubscription) (subscriber : Option Nat) (rands : Nat → ℚ) :
    List TagValue → PublisherObj → Nat → Nat → Except String (List Nat × PublisherObj × Nat)
  | [], p, fresh, _ => .ok ([], p, fresh)
  | _tag :: rest, p, fresh, i =>
    match _subscribe d p subscriber fresh (rands i) with
    | .error e => .error e
    | .ok (lid, p1) =>
      match subscribeAux d subscriber rands rest p1 (fresh + 1) (i + 1) with
      | .error e => .error e
      | .ok (ls, p2, fresh2) => .ok (lid :: ls, p2, fresh2)

/-- subscribe (subscriptions.py lines 63-70). -/
def subscribe (h : HashFn) (d : EventSubscription) (p : PublisherObj)
    (subscriber : Option Nat) (fresh : Nat) (rands : Nat → ℚ) :
    Except String (List Nat × PublisherObj × Nat) :=
  subscribeAux d subscriber rands (_get_event_tags h d) p fresh 0

/-- _unsubscribe (subscriptions.py lines 102-110): same type check, then
publisher.remove_listener(listener). -/
def _unsubscribe (d : EventSubscription) (p : PublisherObj) (lid : Nat) :
    Except String PublisherObj :=
  if !(p.classes.contains d.publisher_class) then
    .error "Publisher type mismatch"
  else
    .ok { p with st := EventPublisher.remove_listener p.st lid }

/-- The loop of unsubscribe (subscriptions.py lines 72-77): one _unsubscribe
per resolved tag. -/
def unsubscribeAux (d : EventSubscription) (lid : Nat) :
    List TagValue → PublisherObj → Except String PublisherObj
  | [], p => .ok p
  | _tag :: rest, p =>
    match _unsubscribe d p lid with
    | .error e => .error e
    | .ok p1 => unsubscribeAux d lid rest p1

/-- unsubscribe (subscriptions.py lines 72-77). -/
def unsubscribe (h : HashFn) (d : EventSubscription) (p : PublisherObj) (lid : Nat) :
    Except String PublisherObj :=
  unsubscribeAux d lid (_get_event_tags h d) p

end EventSubscription

/-- First-match lookup in an association list keyed by object id (Python
dict lookup, restricted to identity-equal keys as used here). -/
def listLookup {α : Type} : List (Nat × α) → Nat → Option α
  | [], _ => none
  | kv :: rest, k => if kv.1 = k then some kv.2 else listLookup rest k

/-- defaultdict __getitem__: return the entry for `k`, inserting `dflt`
under `k` first when the key is missing. Returns the entry and the possibly
enlarged map. -/
def getitemDefault {α : Type} (m : List (Nat × α)) (k : Nat) (dflt : α) :
    α × List (Nat × α) :=
  match listLookup m k with
  | some v => (v, m)
  | none => (dflt, m ++ [(k, dflt)])

/-- In-place update of the entry for an existing key. -/
def assocSet {α : Type} (m : List (Nat × α)) (k : Nat) (v : α) : List (Nat × α) :=
  m.map (fun kv => if kv.1 = k then (k, v) else kv)

/-- Python `subscription in dict` on an inner dict keyed by descriptors:
true iff some key is identity-equal to the probe (EventSubscription has no
__eq__, so equal hashes alone never match). -/
def innerHasKey (inner : List (EventSubscription × List Nat))
    (d : EventSubscription) : Bool :=
  inner.any (fun e => pyEqSub e.1 d)

/-- The listener list stored under the first identity-equal descriptor key. -/
def innerLookup (inner : List (EventSubscription × List Nat))
    (d : EventSubscription) : List Nat :=
  match inner with
  | [] => []
  | e :: rest => if pyEqSub e.1 d then e.2 else innerLookup rest d

/-- A class-level attribute as seen by the reflection scans: an
EventPublication constant, an EventSubscription constant, or anything else. -/
inductive Attr where
  | pub (p : EventPublication)
  | sub (s : EventSubscription)
  | other
deriving DecidableEq, Repr

/-- A Python class for the reflection model: the attribute dictionaries of
its method resolution order, most derived first; `mro.headD []` is the
immediate class __dict__ that `cls.__dict__.items()` iterates. -/
structure PyClass where
  mro : List (List (String × Attr))
deriving DecidableEq, Repr

namespace MultiPublisher

/-- get_event_definitions (publishers/multi.py lines 23-30): scan
cls.__dict__.items() and keep the EventPublication values, keyed by name. -/
def get_event_definitions (c : PyClass) : List (String × EventPublication) :=
  (c.mro.headD []).filterMap (fun nv =>
    match nv.2 with
    | .pub p => some (nv.1, p)
    | _ => none)

end MultiPublisher

/-- Modelled from the spec: the method-resolution-order-aware merge the spec
prescribes for get_event_definitions — walk the MRO from base to derived,
each class dictionary overriding entries of the same name, so subclass
entries win and inherited entries survive. -/
def mroMergeAttrs (c : PyClass) : List (String × Attr) :=
  c.mro.reverse.foldl
    (fun acc d => acc.filter (fun nv => !(d.any (fun nv2 => nv2.1 == nv.1))) ++ d) []

/-- Modelled from the spec: the Publication view of the MRO-aware merge. -/
def mroMergePublications (c : PyClass) : List (String × EventPublication) :=
  (mroMergeAttrs c).filterMap (fun nv =>
    match nv.2 with
    | .pub p => some (nv.1, p)
    | _ => none)

/-- State of a MultiSubscriber (subscribers/multi.py lines 14-18): its own
object id (it passes itself as the subscriber), the declared Subscription
constants (the values of get_event_definitions()), and the
`self._subscribers` defaultdict keyed by publisher object id, each entry a
dict from descriptor to the retained listener list. -/
structure MSState where
  oid : Nat
  defs : List EventSubscription
  subscribers : List (Nat × List (EventSubscription × List Nat))
deriving Repr

namespace MultiSubscriber

/-- get_event_definitions (subscribers/multi.py lines 22-28): scan
cls.__dict__.items() and keep the EventSubscription values, keyed by name. -/
def get_event_definitions (c : PyClass) : List (String × EventSubscription) :=
  (c.mro.headD []).filterMap (fun nv =>
    match nv.2 with
    | .sub s => some (nv.1, s)
    | _ => none)

/-- add_subscription (subscribers/multi.py lines 38-48): raise ValueError
unless the descriptor is declared; the membership test
`subscription in self._subscribers[publisher]` indexes the defaultdict
(inserting an empty dict for a new publisher); no-op and return when the
pair is already registered; otherwise call the descriptor
(`subscription(publisher, self)`, i.e. subscribe with self as subscriber)
and store the returned listener list under the pair. The returned Bool
records whether subscribe was invoked. -/
def add_subscription (h : EventSubscription.HashFn) (ms : MSState)
    (d : EventSubscription) (p : PublisherObj) (fresh : Nat) (rands : Nat → ℚ) :
    Except String (MSState × PublisherObj × Nat × Bool) :=
  if !(ms.defs.any (fun v => pyEqSub v d)) then
    .error "Subscription not defined in event definitions"
  else
    let pr := getitemDefault ms.subscribers p.oid []
    if innerHasKey pr.1 d then
      .ok ({ ms with subscribers := pr.2 }, p, fresh, false)
    else
      match EventSubscription.subscribe h d p (some ms.oid) fresh rands with
      | .error e => .error e
      | .ok (ls, p1, fresh1) =>
        .ok ({ ms with subscribers := assocSet pr.2 p.oid (pr.1 ++ [(d, ls)]) },
          p1, fresh1, true)

/-- The loop of remove_subscription (subscribers/multi.py lines 59-62):
unsubscribe every retained listener of the pair; a raised error propagates. -/
def removeSubLoop (h : EventSubscription.HashFn) (d : EventSubscription) :
    List Nat → PublisherObj → Except String PublisherObj
  | [], p => .ok p
  | lid :: rest, p =>
    match EventSubscription.unsubscribe h d p lid with
    | .error e => .error e
    | .ok p1 => removeSubLoop h d rest p1

/-- remove_subscription (subscribers/multi.py lines 50-64): raise ValueError
unless the descriptor is declared; the membership test indexes the
defaultdict (inserting an empty dict for a new publisher); no-op and return
when the pair is not registered; otherwise unsubscribe every retained
listener and delete the stored entry (the per-listener `.remove` on the
stored list is subsumed by the final deletion, which the source performs
unconditionally after the loop). -/
def remove_subscription (h : EventSubscription.HashFn) (ms : MSState)
    (d : EventSubscription) (p : PublisherObj) :
    Except String (MSState × PublisherObj) :=
  if !(ms.defs.any (fun v => pyEqSub v d)) then
    .error "Subscription not defined in event definitions"
  else
    let pr := getitemDefault ms.subscribers p.oid []
    if !(innerHasKey pr.1 d) then
      .ok ({ ms with subscribers := pr.2 }, p)
    else
      match removeSubLoop h d (innerLookup pr.1 d) p with
      | .error e => .error e
      | .ok p1 =>
        let inner1 := pr.1.filter (fun e => !(pyEqSub e.1 d))
        .ok ({ ms with subscribers := assocSet pr.2 p.oid inner1 }, p1)

end MultiSubscriber

/-- Concrete instance for the C6 counterexample: a descriptor whose tag
list is empty, bound to a publisher that is NOT an instance of its
publisher_type, with callback_with_subscriber set and a null owner. -/
def c6d : EventSubscription := ⟨0, 50, .multi [], 7, true⟩

def c6p : PublisherObj := ⟨1, [99], ⟨⟨.intTag 1, 0⟩, [], [], []⟩⟩

def c6h : EventSubscription.HashFn := fun _ => 0

def c6rands : Nat → ℚ := fun _ => 1

/-- Concrete instance for the C6 witness: a two-tag descriptor (spec
scenario C) on a publisher of the right type. -/
def c6wd : EventSubscription := ⟨2, 50, .multi [.intTag 1, .intTag 2], 7, true⟩

def c6wp : PublisherObj := ⟨1, [50], ⟨⟨.intTag 1, 0⟩, [], [], []⟩⟩

/-- Same tag set, in the sense of the claim: equal single tags, or multi-tag
lists that are permutations of each other (order-independent). -/
def tagEquiv : EventTagField → EventTagField → Prop
  | .single t1, .single t2 => t1 = t2
  | .multi l1, .multi l2 => List.Perm l1 l2
  | _, _ => False

instance : ∀ a b : EventTagField, Decidable (tagEquiv a b)
  | .single t1, .single t2 => inferInstanceAs (Decidable (t1 = t2))
  | .multi l1, .multi l2 => inferInstanceAs (Decidable (List.Perm l1 l2))
  | .single _, .multi _ => isFalse (fun hf => hf)
  | .multi _, .single _ => isFalse (fun hf => hf)

/-- Concrete instance for the C8 counterexample: two descriptors that agree
on publisher_class, tag set and callback but are distinct objects. Their
multi-tag lists are permutations of each other. -/
def c8h : EventSubscription.HashFn := fun t => (t.1 : Int) + (t.2.2 : Int)

def c8d1 : EventSubscription := ⟨0, 7, .multi [.intTag 10, .intTag 2], 9, true⟩

def c8d2 : EventSubscription := ⟨1, 7, .multi [.intTag 2, .intTag 10], 9, true⟩

/-- Concrete instance for the C8 witness, sharing fields but not identity. -/
def c8w1 : EventSubscription := ⟨5, 7, .multi [.intTag 1, .enumTag "E.A"], 9, true⟩

def c8w2 : EventSubscription := ⟨6, 7, .multi [.enumTag "E.A", .intTag 1], 9, true⟩

/-- Concrete instance for the C7 counterexample: a base class declaring one
Publication constant and a subclass redeclaring nothing. -/
def c7Child : PyClass := ⟨[[], [("base_event", .pub ⟨.intTag 1, 0⟩)]]⟩

/-- Concrete instance for the C5 witness: one declared descriptor, one
publisher of the right type, an initially empty registration map. -/
def c5h : EventSubscription.HashFn := fun _ => 0

def c5d : EventSubscription := ⟨3, 50, .single (.intTag 1), 7, true⟩

def c5ms : MSState := ⟨100, [c5d], []⟩

def c5p : PublisherObj := ⟨1, [50], ⟨⟨.intTag 1, 0⟩, [], [], []⟩⟩

def c5r : Nat → ℚ := fun _ => 1

def c5ms1 : MSState := ⟨100, [c5d], [(1, [(c5d, [0])])]⟩

def c5p1 : PublisherObj := ⟨1, [50], ⟨⟨.intTag 1, 0⟩, [0], [0], []⟩⟩

def c10h : EventSubscription.HashFn := fun _ => 0

def c10d : EventSubscription := ⟨4, 50, .single (.intTag 1), 7, true⟩

def c10ms : MSState := ⟨100, [c10d], []⟩

def c10p : PublisherObj := ⟨2, [50], ⟨⟨.intTag 1, 0⟩, [], [], []⟩⟩

end FlowEvents

namespace FlowEvents

namespace EventPublisher

theorem ADD_LISTENER_GC_PROBABILITY_eq :
    ADD_LISTENER_GC_PROBABILITY = 5 / 1000 := by
  rw [← Rat.num_div_den ADD_LISTENER_GC_PROBABILITY]
  norm_num [show ADD_LISTENER_GC_PROBABILITY.num = 1 from rfl,
    show ADD_LISTENER_GC_PROBABILITY.den = 200 from rfl]

theorem add_listener_fields (s : State) (l : Nat) (rand : ℚ) :
    (add_listener s l rand).publication = s.publication ∧
    (add_listener s l rand).alive = s.alive ∧
    (add_listener s l rand).log = s.log := by
  unfold add_listener _remove_dead_listeners
  dsimp only
  split <;> exact ⟨rfl, rfl, rfl⟩

theorem addFold_fields (xs : List (Nat × ℚ)) :
    ∀ s : State,
      (xs.foldl (fun st p => add_listener st p.1 p.2) s).publication = s.publication ∧
      (xs.foldl (fun st p => add_listener st p.1 p.2) s).alive = s.alive ∧
      (xs.foldl (fun st p => add_listener st p.1 p.2) s).log = s.log := by
  induction xs with
  | nil => intro s; exact ⟨rfl, rfl, rfl⟩
  | cons x xs ih =>
    intro s
    have h1 := add_listener_fields s x.1 x.2
    have h2 := ih (add_listener s x.1 x.2)
    simp only [List.foldl_cons]
    exact ⟨h2.1.trans h1.1, h2.2.1.trans h1.2.1, h2.2.2.trans h1.2.2⟩

theorem removeFold_fields (xs : List Nat) :
    ∀ s : State,
      (xs.foldl remove_listener s).publication = s.publication ∧
      (xs.foldl remove_listener s).alive = s.alive ∧
      (xs.foldl remove_listener s).log = s.log := by
  induction xs with
  | nil => intro s; exact ⟨rfl, rfl, rfl⟩
  | cons x xs ih =>
    intro s
    have h2 := ih (remove_listener s x)
    simp only [List.foldl_cons]
    exact ⟨h2.1, h2.2.1, h2.2.2⟩

theorem applyAct_fields (s : State) (a : ListenerAct) :
    (applyAct s a).publication = s.publication ∧
    (applyAct s a).alive = s.alive.filter (fun x => !(a.kills.contains x)) ∧
    (applyAct s a).log = s.log := by
  unfold applyAct
  dsimp only
  have h1 := addFold_fields a.addL s
  have h2 := removeFold_fields a.removeL (a.addL.foldl (fun st p => add_listener st p.1 p.2) s)
  exact ⟨h2.1.trans h1.1, by rw [h2.2.1, h1.2.1], h2.2.2.trans h1.2.2⟩

/-- Complete characterization of the dispatch loop of trigger_event: the
invocation list is `runAlive`, the publication is untouched, the alive set
evolves by the kills of the invoked listeners, and the log grows by exactly
one record (carrying the publication tag) per invoked listener that raised. -/
theorem dispatch_foldl_spec (env : Nat → ListenerAct) (snap : List Nat) :
    ∀ (s : State) (inv : List Nat),
      (snap.foldl (dispatchStep env) (s, inv)).2 = inv ++ runAlive env s.alive snap ∧
      (snap.foldl (dispatchStep env) (s, inv)).1.publication = s.publication ∧
      (snap.foldl (dispatchStep env) (s, inv)).1.alive = aliveChain env s.alive snap ∧
      (snap.foldl (dispatchStep env) (s, inv)).1.log =
        s.log ++ ((runAlive env s.alive snap).filter (fun l => (env l).raises)).map
          (fun _ => s.publication.event_tag) := by
  induction snap with
  | nil => intro s inv; simp [runAlive, aliveChain]
  | cons l ls ih =>
    intro s inv
    by_cases hc : l ∈ s.alive
    · -- the referent of l is alive at its turn: l is invoked
      have hstep : dispatchStep env (s, inv) l =
          (if (env l).raises then
            { applyAct s (env l) with
              log := (applyAct s (env l)).log ++ [(applyAct s (env l)).publication.event_tag] }
          else applyAct s (env l), inv ++ [l]) := by
        unfold dispatchStep
        simp [hc]
      have hf := applyAct_fields s (env l)
      set s2 := (if (env l).raises then
            { applyAct s (env l) with
              log := (applyAct s (env l)).log ++ [(applyAct s (env l)).publication.event_tag] }
          else applyAct s (env l)) with hs2
      have h2pub : s2.publication = s.publication := by
        rw [hs2]
        by_cases hr : (env l).raises = true
        · rw [if_pos hr]; exact hf.1
        · rw [if_neg hr]; exact hf.1
      have h2alive : s2.alive = aliveAfter env l s.alive := by
        rw [hs2]
        unfold aliveAfter
        by_cases hr : (env l).raises = true
        · rw [if_pos hr]; exact hf.2.1
        · rw [if_neg hr]; exact hf.2.1
      have h2log : s2.log = s.log ++ (if (env l).raises then [s.publication.event_tag] else []) := by
        rw [hs2]
        by_cases hr : (env l).raises = true
        · rw [if_pos hr, if_pos hr]
          show (applyAct s (env l)).log ++ [(applyAct s (env l)).publication.event_tag] = _
          rw [hf.2.2, hf.1]
        · rw [if_neg hr, if_neg hr]
          rw [hf.2.2, List.append_nil]
      have hmain := ih s2 (inv ++ [l])
      have hrun : runAlive env s.alive (l :: ls) =
          l :: runAlive env (aliveAfter env l s.alive) ls := by
        simp [runAlive, hc]
      have hchain : aliveChain env s.alive (l :: ls) =
          aliveChain env (aliveAfter env l s.alive) ls := by
        simp [aliveChain, hc]
      rw [List.foldl_cons, hstep]
      refine ⟨?_, ?_, ?_, ?_⟩
      · rw [hmain.1, hrun, h2alive]
        simp
      · rw [hmain.2.1, h2pub]
      · rw [hmain.2.2.1, hchain, h2alive]
      · rw [hmain.2.2.2, hrun, h2alive, h2log, h2pub]
        by_cases hr : (env l).raises = true <;> simp [hr]
    · -- the referent of l is dead: skipped
      have hstep : dispatchStep env (s, inv) l = (s, inv) := by
        unfold dispatchStep
        simp [hc]
      have hrun : runAlive env s.alive (l :: ls) = runAlive env s.alive ls := by
        simp [runAlive, hc]
      have hchain : aliveChain env s.alive (l :: ls) = aliveChain env s.alive ls := by
        simp [aliveChain, hc]
      rw [List.foldl_cons, hstep, hrun, hchain]
      exact ih s inv

/-- The invocation list depends on the listener behaviours only through
their kills: raising and mutating the listener set play no role. -/
theorem runAlive_congr (env env2 : Nat → ListenerAct)
    (h : ∀ l, (env2 l).kills = (env l).kills) :
    ∀ (snap alive : List Nat), runAlive env2 alive snap = runAlive env alive snap := by
  intro snap
  induction snap with
  | nil => intro alive; rfl
  | cons l ls ih =>
    intro alive
    have ha : aliveAfter env2 l alive = aliveAfter env l alive := by
      unfold aliveAfter; rw [h l]
    unfold runAlive
    rw [ha]
    by_cases hc : alive.contains l = true
    · rw [if_pos hc, if_pos hc, ih]
    · rw [if_neg hc, if_neg hc, ih]

/-- A snapshot member that starts alive and is killed by nobody is invoked. -/
theorem runAlive_mem (env : Nat → ListenerAct) :
    ∀ (snap alive : List Nat) (b : Nat), b ∈ alive →
      (∀ l, b ∉ (env l).kills) → b ∈ snap →
      b ∈ runAlive env alive snap := by
  intro snap
  induction snap with
  | nil => intro alive b _ _ hmem; cases hmem
  | cons l ls ih =>
    intro alive b halive hkills hmem
    by_cases hc : l ∈ alive
    · have hrun : runAlive env alive (l :: ls) =
          l :: runAlive env (aliveAfter env l alive) ls := by
        simp [runAlive, hc]
      rw [hrun]
      rcases List.mem_cons.mp hmem with hbl | hbls
      · exact hbl ▸ List.mem_cons_self _ _
      · refine List.mem_cons_of_mem _ (ih _ b ?_ hkills hbls)
        unfold aliveAfter
        refine List.mem_filter.mpr ⟨halive, ?_⟩
        simp [hkills l]
    · have hrun : runAlive env alive (l :: ls) = runAlive env alive ls := by
        simp [runAlive, hc]
      rw [hrun]
      rcases List.mem_cons.mp hmem with hbl | hbls
      · exact absurd (hbl ▸ halive) hc
      · exact ih _ b halive hkills hbls

theorem noDead_remove_dead (s : State) : noDead (_remove_dead_listeners s) := by
  intro r hr
  unfold _remove_dead_listeners at hr
  have := List.mem_filter.mp hr
  simpa using this.2

theorem remove_dead_idem (s : State) :
    _remove_dead_listeners (_remove_dead_listeners s) = _remove_dead_listeners s := by
  unfold _remove_dead_listeners
  simp [List.filter_filter]

theorem trigger_event_eq_ok (s : State) (msg : PyObj) (env : Nat → ListenerAct)
    (h : pyIsinstance msg s.publication.event_class = true) :
    trigger_event s msg env =
      .ok ((_remove_dead_listeners s).listeners.foldl
        (dispatchStep env) (_remove_dead_listeners s, [])) := by
  unfold trigger_event
  rw [h]
  rfl

end EventPublisher

open EventPublisher

/-- C1: for every publisher state and every payload of the correct type,
trigger_event returns normally; each exception raised by an invoked listener
is caught and emits exactly one diagnostic record (carrying the publication
tag) for that listener in this trigger, and which listeners are invoked does
not depend on which listeners raise (dispatch continues to every remaining
listener of the snapshot). -/
theorem trigger_event_isolates_failures (s : State) (msg : PyObj)
    (env : Nat → ListenerAct)
    (h : pyIsinstance msg s.publication.event_class = true) :
    ∃ s' inv, trigger_event s msg env = .ok (s', inv) ∧
      s'.log = s.log ++
        (inv.filter (fun l => (env l).raises)).map (fun _ => s.publication.event_tag) ∧
      ∀ env2 : Nat → ListenerAct, (∀ l, (env2 l).kills = (env l).kills) →
        invokedOf (trigger_event s msg env2) = inv := by
  have hspec := dispatch_foldl_spec env (_remove_dead_listeners s).listeners
    (_remove_dead_listeners s) []
  refine ⟨((_remove_dead_listeners s).listeners.foldl
      (dispatchStep env) (_remove_dead_listeners s, [])).1,
    ((_remove_dead_listeners s).listeners.foldl
      (dispatchStep env) (_remove_dead_listeners s, [])).2, ?_, ?_, ?_⟩
  · rw [trigger_event_eq_ok s msg env h]
  · rw [hspec.2.2.2, hspec.1]
    rfl
  · intro env2 hkills
    have h2 : pyIsinstance msg s.publication.event_class = true := h
    rw [trigger_event_eq_ok s msg env2 h2]
    have hspec2 := dispatch_foldl_spec env2 (_remove_dead_listeners s).listeners
      (_remove_dead_listeners s) []
    show (List.foldl (dispatchStep env2) _ _).2 = _
    rw [hspec2.1, hspec.1]
    rw [runAlive_congr env env2 hkills]

theorem trigger_event_isolates_failures_witness :
    pyIsinstance c1Msg c1S.publication.event_class = true ∧
    (∃ s' inv, trigger_event c1S c1Msg c1Env = .ok (s', inv) ∧
      s'.log = c1S.log ++
        (inv.filter (fun l => (c1Env l).raises)).map (fun _ => c1S.publication.event_tag) ∧
      ∀ env2 : Nat → ListenerAct, (∀ l, (env2 l).kills = (c1Env l).kills) →
        invokedOf (trigger_event c1S c1Msg env2) = inv) :=
  ⟨by decide, trigger_event_isolates_failures c1S c1Msg c1Env (by decide)⟩

/-- C2: for every publisher state and payload whose runtime type does not
satisfy the publication payload type, trigger_event fails with the invalid
event type error and no listener is invoked. -/
theorem trigger_event_invalid_type (s : State) (msg : PyObj)
    (env : Nat → ListenerAct)
    (h : pyIsinstance msg s.publication.event_class = false) :
    trigger_event s msg env = .error "Invalid event type" ∧
    invokedOf (trigger_event s msg env) = [] := by
  have he : trigger_event s msg env = .error "Invalid event type" := by
    unfold trigger_event
    rw [h]
    rfl
  exact ⟨he, by rw [he]; rfl⟩

theorem trigger_event_invalid_type_witness :
    pyIsinstance c2Msg c2S.publication.event_class = false ∧
    (trigger_event c2S c2Msg c2Env = .error "Invalid event type" ∧
      invokedOf (trigger_event c2S c2Msg c2Env) = []) :=
  ⟨by decide, trigger_event_invalid_type c2S c2Msg c2Env (by decide)⟩

/-- C3: trigger_event dispatches to a copy of the listener set taken at
dispatch start. The invocation list is invariant under any change of the add
and remove calls (and raising) the listeners perform during their own
invocation, and a snapshot member that stays alive is invoked even when an
earlier listener removes it from the publisher mid-dispatch. -/
theorem trigger_event_snapshot_isolation (s : State) (msg : PyObj)
    (env : Nat → ListenerAct)
    (h : pyIsinstance msg s.publication.event_class = true) :
    (∀ env2 : Nat → ListenerAct, (∀ l, (env2 l).kills = (env l).kills) →
      invokedOf (trigger_event s msg env2) = invokedOf (trigger_event s msg env)) ∧
    (∀ b, b ∈ (_remove_dead_listeners s).listeners → b ∈ s.alive →
      (∀ l, b ∉ (env l).kills) → b ∈ invokedOf (trigger_event s msg env)) := by
  have hinv : invokedOf (trigger_event s msg env) =
      runAlive env (_remove_dead_listeners s).alive (_remove_dead_listeners s).listeners := by
    rw [trigger_event_eq_ok s msg env h]
    show (List.foldl (dispatchStep env) _ _).2 = _
    rw [(dispatch_foldl_spec env (_remove_dead_listeners s).listeners
      (_remove_dead_listeners s) []).1]
    rfl
  constructor
  · intro env2 hkills
    have hinv2 : invokedOf (trigger_event s msg env2) =
        runAlive env2 (_remove_dead_listeners s).alive (_remove_dead_listeners s).listeners := by
      rw [trigger_event_eq_ok s msg env2 h]
      show (List.foldl (dispatchStep env2) _ _).2 = _
      rw [(dispatch_foldl_spec env2 (_remove_dead_listeners s).listeners
        (_remove_dead_listeners s) []).1]
      rfl
    rw [hinv, hinv2, runAlive_congr env env2 hkills]
  · intro b hb halive hkills
    rw [hinv]
    exact runAlive_mem env _ _ b halive hkills hb

theorem trigger_event_snapshot_isolation_witness :
    pyIsinstance c3Msg c3S.publication.event_class = true ∧
    2 ∈ (_remove_dead_listeners c3S).listeners ∧ 2 ∈ c3S.alive ∧
    2 ∈ invokedOf (trigger_event c3S c3Msg c3Env) :=
  ⟨by decide, by decide, by decide,
    (trigger_event_snapshot_isolation c3S c3Msg c3Env (by decide)).2 2
      (by decide) (by decide)
      (fun l => by by_cases hl : l = 1 <;> simp [c3Env, hl])⟩

/-- C4 counterexample: dead weak-reference entries are NOT removed after
trigger_event. In this concrete run the referent of entry 2 is collected
during dispatch and the returned state still holds the dead entry 2 — no
sweep runs after the dispatch loop (publisher.py lines 68-89 sweep only
before the copy). -/
theorem c4_no_sweep_after_trigger :
    trigger_event c4S c4Msg c4Env = .ok (c4S1, [1]) ∧
    2 ∈ c4S1.listeners ∧ 2 ∉ c4S1.alive := by
  refine ⟨?_, by decide, by decide⟩
  rfl

/-- C4 as amended: dead entries are removed unconditionally before (but not
after) every trigger_event, unconditionally on every remove_listener and on
every get_listeners, and on add_listener exactly when the uniform draw falls
below ADD_LISTENER_GC_PROBABILITY = 0.005. -/
theorem dead_reference_reclamation :
    (∀ (s : State) (msg : PyObj) (env : Nat → ListenerAct),
      trigger_event s msg env = trigger_event (_remove_dead_listeners s) msg env) ∧
    (∀ (s : State) (l : Nat), noDead (remove_listener s l)) ∧
    (∀ s : State, (get_listeners s).2 = _remove_dead_listeners s) ∧
    (∀ (s : State) (l : Nat) (rand : ℚ), rand < ADD_LISTENER_GC_PROBABILITY →
      noDead (add_listener s l rand)) ∧
    (∀ (s : State) (l : Nat) (rand : ℚ), ¬ rand < ADD_LISTENER_GC_PROBABILITY →
      add_listener s l rand = { s with listeners := setAdd s.listeners l }) ∧
    ADD_LISTENER_GC_PROBABILITY = 5 / 1000 ∧
    (∃ s' : State, trigger_event c4S c4Msg c4Env = .ok (s', [1]) ∧
      2 ∈ s'.listeners ∧ 2 ∉ s'.alive) := by
  refine ⟨?_, ?_, ?_, ?_, ?_, ADD_LISTENER_GC_PROBABILITY_eq, ?_⟩
  · intro s msg env
    unfold trigger_event
    rw [remove_dead_idem]
    rfl
  · intro s l
    exact noDead_remove_dead _
  · intro s
    rfl
  · intro s l rand hrand
    unfold add_listener
    rw [if_pos hrand]
    exact noDead_remove_dead _
  · intro s l rand hrand
    unfold add_listener
    rw [if_neg hrand]
  · exact ⟨c4S1, by rfl, by decide, by decide⟩

theorem dead_reference_reclamation_witness :
    (0 : ℚ) < ADD_LISTENER_GC_PROBABILITY ∧
    noDead (add_listener ⟨⟨.intTag 1, 0⟩, [3, 9], [3], []⟩ 7 0) :=
  ⟨by decide,
    dead_reference_reclamation.2.2.2.1 ⟨⟨.intTag 1, 0⟩, [3, 9], [3], []⟩ 7 0 (by decide)⟩

theorem lexLe_cons_iff (a b : Char) (as bs : List Char) :
    lexLe (a :: as) (b :: bs) = true ↔ (a < b ∨ (a = b ∧ lexLe as bs = true)) := by
  show (if a < b then true else if b < a then false else lexLe as bs) = true ↔ _
  by_cases h1 : a < b
  · simp [h1]
  · by_cases h2 : b < a
    · have hne : a ≠ b := fun he => absurd (he ▸ h2) (lt_irrefl a)
      simp [h1, h2, hne]
    · have heq : a = b := le_antisymm (le_of_not_lt h2) (le_of_not_lt h1)
      simp [h1, h2, heq]

theorem lexLe_total : ∀ as bs : List Char, lexLe as bs = true ∨ lexLe bs as = true := by
  intro as
  induction as with
  | nil => intro bs; left; rfl
  | cons a as ih =>
    intro bs
    cases bs with
    | nil => right; rfl
    | cons b bs =>
      rcases lt_trichotomy a b with h | h | h
      · left; exact (lexLe_cons_iff a b as bs).mpr (Or.inl h)
      · rcases ih bs with hr | hr
        · left; exact (lexLe_cons_iff a b as bs).mpr (Or.inr ⟨h, hr⟩)
        · right; exact (lexLe_cons_iff b a bs as).mpr (Or.inr ⟨h.symm, hr⟩)
      · right; exact (lexLe_cons_iff b a bs as).mpr (Or.inl h)

theorem lexLe_trans : ∀ as bs cs : List Char,
    lexLe as bs = true → lexLe bs cs = true → lexLe as cs = true := by
  intro as
  induction as with
  | nil => intro bs cs _ _; rfl
  | cons a as ih =>
    intro bs cs hab hbc
    cases bs with
    | nil => exact absurd hab (by simp [lexLe])
    | cons b bs =>
      cases cs with
      | nil => exact absurd hbc (by simp [lexLe])
      | cons c cs =>
        rcases (lexLe_cons_iff a b as bs).mp hab with h1 | h1 <;>
          rcases (lexLe_cons_iff b c bs cs).mp hbc with h2 | h2
        · exact (lexLe_cons_iff a c as cs).mpr (Or.inl (lt_trans h1 h2))
        · exact (lexLe_cons_iff a c as cs).mpr (Or.inl (h2.1 ▸ h1))
        · exact (lexLe_cons_iff a c as cs).mpr (Or.inl (h1.1 ▸ h2))
        · exact (lexLe_cons_iff a c as cs).mpr
            (Or.inr ⟨h1.1.trans h2.1, ih bs cs h1.2 h2.2⟩)

theorem lexLe_antisymm : ∀ as bs : List Char,
    lexLe as bs = true → lexLe bs as = true → as = bs := by
  intro as
  induction as with
  | nil =>
    intro bs _ hba
    cases bs with
    | nil => rfl
    | cons b bs => exact absurd hba (by simp [lexLe])
  | cons a as ih =>
    intro bs hab hba
    cases bs with
    | nil => exact absurd hab (by simp [lexLe])
    | cons b bs =>
      rcases (lexLe_cons_iff a b as bs).mp hab with h1 | h1 <;>
        rcases (lexLe_cons_iff b a bs as).mp hba with h2 | h2
      · exact absurd h2 (lt_asymm h1)
      · exact absurd (h2.1 ▸ h1) (lt_irrefl a)
      · exact absurd (h1.1 ▸ h2) (lt_irrefl b)
      · rw [h1.1, ih bs h1.2 h2.2]

instance : IsTotal String strLe := ⟨fun a b => lexLe_total a.data b.data⟩

instance : IsTrans String strLe := ⟨fun a b c => lexLe_trans a.data b.data c.data⟩

instance : IsAntisymm String strLe :=
  ⟨fun a b h1 h2 => String.ext (lexLe_antisymm a.data b.data h1 h2)⟩

open EventSubscription in
/-- C9: tag resolution (_get_event_tags, used by both subscribe and
unsubscribe) maps the tag list pointwise: an enumerant or integer tag is
kept unchanged, and every other tag is replaced by the descriptor structural
hash — the single synthetic slot shared by all such tags on the descriptor,
deterministic per descriptor because it is a function of the descriptor
alone. -/
theorem tag_resolution_collapses (h : HashFn) (d : EventSubscription) :
    List.Forall₂ (fun t r =>
        (isEnumOrInt t = true → r = t) ∧
        (isEnumOrInt t = false → r = TagValue.intTag (structHash h d)))
      (tagsOf d) (_get_event_tags h d) := by
  unfold _get_event_tags
  induction tagsOf d with
  | nil => exact List.Forall₂.nil
  | cons t ts ih =>
    refine List.Forall₂.cons ⟨?_, ?_⟩ ih
    · intro he; simp [he]
    · intro he; simp [he]

theorem mem_setAdd_self (xs : List Nat) (x : Nat) : x ∈ EventPublisher.setAdd xs x := by
  unfold EventPublisher.setAdd
  split
  · next hc => simpa using hc
  · simp

theorem mem_setAdd_of_mem {xs : List Nat} {y : Nat} (x : Nat) (hy : y ∈ xs) :
    y ∈ EventPublisher.setAdd xs x := by
  unfold EventPublisher.setAdd
  split
  · exact hy
  · exact List.mem_append_left _ hy

theorem add_listener_keeps (s : EventPublisher.State) (l : Nat) (rand : ℚ) (y : Nat)
    (hyl : y ∈ s.listeners) (hya : y ∈ s.alive) :
    y ∈ (EventPublisher.add_listener s l rand).listeners ∧
    y ∈ (EventPublisher.add_listener s l rand).alive := by
  unfold EventPublisher.add_listener EventPublisher._remove_dead_listeners
  dsimp only
  split
  · exact ⟨List.mem_filter.mpr ⟨mem_setAdd_of_mem l hyl, by simpa using hya⟩, hya⟩
  · exact ⟨mem_setAdd_of_mem l hyl, hya⟩

theorem add_listener_self (s : EventPublisher.State) (l : Nat) (rand : ℚ)
    (hla : l ∈ s.alive) :
    l ∈ (EventPublisher.add_listener s l rand).listeners ∧
    l ∈ (EventPublisher.add_listener s l rand).alive := by
  unfold EventPublisher.add_listener EventPublisher._remove_dead_listeners
  dsimp only
  split
  · exact ⟨List.mem_filter.mpr ⟨mem_setAdd_self _ l, by simpa using hla⟩, hla⟩
  · exact ⟨mem_setAdd_self _ l, hla⟩

open EventSubscription in
theorem _subscribe_ok (d : EventSubscription) (p : PublisherObj)
    (subscriber : Option Nat) (fid : Nat) (rand : ℚ)
    (htype : p.classes.contains d.publisher_class = true)
    (howner : d.callback_with_subscriber = true → subscriber ≠ none) :
    ∃ p1, _subscribe d p subscriber fid rand = .ok (fid, p1) ∧
      p1.oid = p.oid ∧ p1.classes = p.classes ∧
      (fid ∈ p1.st.listeners ∧ fid ∈ p1.st.alive) ∧
      (∀ y, y ∈ p.st.listeners → y ∈ p.st.alive →
        y ∈ p1.st.listeners ∧ y ∈ p1.st.alive) := by
  unfold _subscribe
  rw [htype]
  have hfid : fid ∈ EventPublisher.setAdd p.st.alive fid := mem_setAdd_self _ fid
  rcases hcw : d.callback_with_subscriber with _ | _
  · refine ⟨_, rfl, rfl, rfl, ?_, ?_⟩
    · exact add_listener_self _ fid rand hfid
    · intro y hyl hya
      exact add_listener_keeps _ fid rand y hyl (mem_setAdd_of_mem fid hya)
  · rcases subscriber with _ | o
    · exact absurd rfl (howner hcw)
    · refine ⟨_, rfl, rfl, rfl, ?_, ?_⟩
      · exact add_listener_self _ fid rand hfid
      · intro y hyl hya
        exact add_listener_keeps _ fid rand y hyl (mem_setAdd_of_mem fid hya)

open EventSubscription in
theorem subscribeAux_ok (d : EventSubscription) (subscriber : Option Nat)
    (rands : Nat → ℚ)
    (howner : d.callback_with_subscriber = true → subscriber ≠ none) :
    ∀ (tags : List TagValue) (p : PublisherObj) (fresh i : Nat),
      p.classes.contains d.publisher_class = true →
      ∃ p2, subscribeAux d subscriber rands tags p fresh i =
          .ok (List.range' fresh tags.length, p2, fresh + tags.length) ∧
        p2.oid = p.oid ∧ p2.classes = p.classes ∧
        (∀ y, y ∈ p.st.listeners → y ∈ p.st.alive →
          y ∈ p2.st.listeners ∧ y ∈ p2.st.alive) ∧
        (∀ lid ∈ List.range' fresh tags.length, lid ∈ p2.st.listeners) := by
  intro tags
  induction tags with
  | nil =>
    intro p fresh i _
    exact ⟨p, rfl, rfl, rfl, fun y hyl hya => ⟨hyl, hya⟩, by simp [List.range']⟩
  | cons t ts ih =>
    intro p fresh i htype
    obtain ⟨p1, he1, hoid1, hcls1, hfid1, hkeep1⟩ :=
      _subscribe_ok d p subscriber fresh (rands i) htype howner
    obtain ⟨p2, he2, hoid2, hcls2, hkeep2, hmem2⟩ :=
      ih p1 (fresh + 1) (i + 1) (by rw [hcls1]; exact htype)
    have harith : fresh + (ts.length + 1) = fresh + 1 + ts.length := by omega
    refine ⟨p2, ?_, hoid2.trans hoid1, hcls2.trans hcls1, ?_, ?_⟩
    · show subscribeAux d subscriber rands (t :: ts) p fresh i = _
      unfold subscribeAux
      rw [he1]
      dsimp only
      rw [he2]
      dsimp only [List.length_cons]
      rw [show List.range' fresh (ts.length + 1) =
        fresh :: List.range' (fresh + 1) ts.length from rfl, harith]
    · intro y hyl hya
      obtain ⟨h1, h2⟩ := hkeep1 y hyl hya
      exact hkeep2 y h1 h2
    · intro lid hlid
      rw [show List.range' fresh (t :: ts).length =
        fresh :: List.range' (fresh + 1) ts.length from rfl] at hlid
      rcases List.mem_cons.mp hlid with hl | hl
      · exact hl ▸ (hkeep2 fresh hfid1.1 hfid1.2).1
      · exact hmem2 lid hl

open EventSubscription in
/-- C6 as amended: for a live publisher that is an instance of the
descriptor publisher_type and (when callback_with_subscriber) a non-null
owner, subscribe constructs and registers exactly one listener per tag of
the descriptor tag list and returns the list of created handles; provided
the tag list is nonempty, it fails with the publisher type mismatch error
on a wrong publisher type, and with the missing owner error when
callback_with_subscriber is set and the owner is null. A descriptor with an
empty tag list performs no check at all and returns the empty list. -/
theorem subscription_subscribe_spec (h : HashFn) (d : EventSubscription)
    (p : PublisherObj) (subscriber : Option Nat) (fresh : Nat) (rands : Nat → ℚ) :
    (p.classes.contains d.publisher_class = true →
      (d.callback_with_subscriber = true → subscriber ≠ none) →
      ∃ p2, subscribe h d p subscriber fresh rands =
          .ok (List.range' fresh (tagsOf d).length, p2, fresh + (tagsOf d).length) ∧
        p2.oid = p.oid ∧ p2.classes = p.classes ∧
        (List.range' fresh (tagsOf d).length).length = (tagsOf d).length ∧
        ∀ lid ∈ List.range' fresh (tagsOf d).length, lid ∈ p2.st.listeners) ∧
    (tagsOf d ≠ [] → p.classes.contains d.publisher_class = false →
      subscribe h d p subscriber fresh rands = .error "Publisher type mismatch") ∧
    (tagsOf d ≠ [] → p.classes.contains d.publisher_class = true →
      d.callback_with_subscriber = true → subscriber = none →
      subscribe h d p subscriber fresh rands =
        .error "Subscriber is required for callback with subscriber") := by
  have hlen : (_get_event_tags h d).length = (tagsOf d).length := by
    unfold _get_event_tags
    exact List.length_map _ _
  refine ⟨?_, ?_, ?_⟩
  · intro htype howner
    obtain ⟨p2, he, hoid, hcls, hkeep, hmem⟩ :=
      subscribeAux_ok d subscriber rands howner (_get_event_tags h d) p fresh 0 htype
    rw [hlen] at he hmem
    exact ⟨p2, he, hoid, hcls, by simp, hmem⟩
  · intro hne htype
    obtain ⟨t, rest, hrest⟩ : ∃ t rest, _get_event_tags h d = t :: rest := by
      rcases hg : _get_event_tags h d with _ | ⟨t, rest⟩
      · rw [hg] at hlen
        exact absurd (List.length_eq_zero.mp hlen.symm) hne
      · exact ⟨t, rest, rfl⟩
    show subscribeAux d subscriber rands (_get_event_tags h d) p fresh 0 = _
    rw [hrest]
    unfold subscribeAux
    have hsub : _subscribe d p subscriber fresh (rands 0) = .error "Publisher type mismatch" := by
      unfold _subscribe
      rw [htype]
      rfl
    rw [hsub]
  · intro hne htype hcw hnone
    obtain ⟨t, rest, hrest⟩ : ∃ t rest, _get_event_tags h d = t :: rest := by
      rcases hg : _get_event_tags h d with _ | ⟨t, rest⟩
      · rw [hg] at hlen
        exact absurd (List.length_eq_zero.mp hlen.symm) hne
      · exact ⟨t, rest, rfl⟩
    show subscribeAux d subscriber rands (_get_event_tags h d) p fresh 0 = _
    rw [hrest]
    unfold subscribeAux
    have hsub : _subscribe d p subscriber fresh (rands 0) =
        .error "Subscriber is required for callback with subscriber" := by
      unfold _subscribe
      rw [htype, hcw, hnone]
      rfl
    rw [hsub]

/-- C6 counterexample: with an empty tag list, subscribe returns normally
(an empty listener list) even though the publisher type is wrong and the
required owner is null — the type and owner checks live inside the per-tag
loop (subscriptions.py lines 66-70, 89-95) and never run. -/
theorem c6_empty_taglist_skips_checks :
    c6p.classes.contains c6d.publisher_class = false ∧
    c6d.callback_with_subscriber = true ∧
    EventSubscription.subscribe c6h c6d c6p none 0 c6rands = .ok ([], c6p, 0) :=
  ⟨by decide, by decide, rfl⟩

theorem subscription_subscribe_spec_witness :
    c6wp.classes.contains c6wd.publisher_class = true ∧
    (∃ p2, EventSubscription.subscribe c6h c6wd c6wp (some 100) 0 c6rands =
        .ok (List.range' 0 (EventSubscription.tagsOf c6wd).length, p2,
          0 + (EventSubscription.tagsOf c6wd).length) ∧
      p2.oid = c6wp.oid ∧ p2.classes = c6wp.classes ∧
      (List.range' 0 (EventSubscription.tagsOf c6wd).length).length =
        (EventSubscription.tagsOf c6wd).length ∧
      ∀ lid ∈ List.range' 0 (EventSubscription.tagsOf c6wd).length,
        lid ∈ p2.st.listeners) :=
  ⟨by decide,
    (subscription_subscribe_spec c6h c6wd c6wp (some 100) 0 c6rands).1
      (by decide) (fun _ => by simp)⟩

open EventSubscription in
theorem event_tag_str_congr (d1 d2 : EventSubscription)
    (htag : tagEquiv d1.event_tag d2.event_tag) :
    event_tag_str d1 = event_tag_str d2 := by
  unfold event_tag_str
  rcases h1 : d1.event_tag with t1 | l1 <;> rcases h2 : d2.event_tag with t2 | l2 <;>
    rw [h1, h2] at htag
  · rw [show t1 = t2 from htag]
  · exact absurd htag (fun hf => hf)
  · exact absurd htag (fun hf => hf)
  · have hperm : List.Perm (l1.map TagValue.pyStr) (l2.map TagValue.pyStr) :=
      htag.map TagValue.pyStr
    have hsorted : List.insertionSort strLe (l1.map TagValue.pyStr) =
        List.insertionSort strLe (l2.map TagValue.pyStr) :=
      @List.eq_of_perm_of_sorted String strLe _ _ _
        (((List.perm_insertionSort strLe _).trans hperm).trans
          (List.perm_insertionSort strLe _).symm)
        (List.sorted_insertionSort strLe _)
        (List.sorted_insertionSort strLe _)
    dsimp only
    rw [hsorted]

open EventSubscription in
/-- C8 as amended: two descriptors with the same publisher_type, the same
tag set (multi-tag lists compared order-independently via the sorted
canonical tag string) and the same callback hash equal; but
EventSubscription does not override __eq__, so descriptor equality is
object identity and the container map-key probe matches a stored key only
when it is the identical object — equal hashes alone do not make two
distinct descriptors interchangeable. -/
theorem subscription_hash_eq (h : HashFn) (d1 d2 : EventSubscription)
    (hpc : d1.publisher_class = d2.publisher_class)
    (hcb : d1.callback = d2.callback)
    (htag : tagEquiv d1.event_tag d2.event_tag) :
    structHash h d1 = structHash h d2 ∧
    (pyEqSub d1 d2 = true ↔ d1.oid = d2.oid) ∧
    (∀ ls : List Nat, innerHasKey [(d1, ls)] d2 = (d1.oid == d2.oid)) := by
  refine ⟨?_, ?_, ?_⟩
  · unfold structHash
    rw [hpc, hcb, event_tag_str_congr d1 d2 htag]
  · unfold pyEqSub
    simp
  · intro ls
    unfold innerHasKey pyEqSub
    simp

/-- C8 counterexample: the two descriptors hash equal (the canonical tag
string sorts both lists to the same form) but do NOT compare equal —
EventSubscription defines __hash__ (subscriptions.py lines 32-33) but no
__eq__, leaving identity equality — so as a map key one does not find the
entry stored under the other. -/
theorem c8_hash_equal_not_map_interchangeable :
    EventSubscription.structHash c8h c8d1 = EventSubscription.structHash c8h c8d2 ∧
    pyEqSub c8d1 c8d2 = false ∧
    innerHasKey [(c8d1, [5])] c8d2 = false := by
  refine ⟨by decide, by decide, by decide⟩

theorem subscription_hash_eq_witness :
    c8w1.publisher_class = c8w2.publisher_class ∧
    c8w1.callback = c8w2.callback ∧
    tagEquiv c8w1.event_tag c8w2.event_tag ∧
    (EventSubscription.structHash c8h c8w1 = EventSubscription.structHash c8h c8w2 ∧
      (pyEqSub c8w1 c8w2 = true ↔ c8w1.oid = c8w2.oid) ∧
      (∀ ls : List Nat, innerHasKey [(c8w1, ls)] c8w2 = (c8w1.oid == c8w2.oid))) :=
  ⟨by decide, by decide, by decide,
    subscription_hash_eq c8h c8w1 c8w2 (by decide) (by decide) (by decide)⟩

/-- C7 counterexample: get_event_definitions is a flat scan of
cls.__dict__ (publishers/multi.py line 27, subscribers/multi.py line 25): a
subclass that does not redeclare an inherited Publication constant does not
see it, whereas the MRO-aware merge the claim prescribes would. -/
theorem c7_flat_scan_differs_from_mro_merge :
    MultiPublisher.get_event_definitions c7Child = [] ∧
    mroMergePublications c7Child = [("base_event", ⟨.intTag 1, 0⟩)] ∧
    MultiPublisher.get_event_definitions c7Child ≠ mroMergePublications c7Child := by
  refine ⟨rfl, rfl, by decide⟩

/-- C7 as amended: get_event_definitions on both containers returns exactly
the Publication (respectively Subscription) class-level constants declared
in the immediate class dictionary, keyed by declared name — a flat scan of
the immediate class only. A name redeclared in the subclass is taken from
the subclass dictionary (shadowing is automatic), but constants declared
only in a base class are absent: the result depends on nothing but the
immediate class dictionary. -/
theorem get_event_definitions_flat_scan :
    (∀ (c : PyClass) (name : String) (p : EventPublication),
      (name, p) ∈ MultiPublisher.get_event_definitions c ↔
        (name, Attr.pub p) ∈ c.mro.headD []) ∧
    (∀ (c : PyClass) (name : String) (s : EventSubscription),
      (name, s) ∈ MultiSubscriber.get_event_definitions c ↔
        (name, Attr.sub s) ∈ c.mro.headD []) ∧
    (∀ c : PyClass,
      MultiPublisher.get_event_definitions c =
        MultiPublisher.get_event_definitions ⟨[c.mro.headD []]⟩ ∧
      MultiSubscriber.get_event_definitions c =
        MultiSubscriber.get_event_definitions ⟨[c.mro.headD []]⟩) := by
  refine ⟨?_, ?_, fun c => ⟨rfl, rfl⟩⟩
  · intro c name p
    unfold MultiPublisher.get_event_definitions
    rw [List.mem_filterMap]
    constructor
    · rintro ⟨nv, hmem, hf⟩
      rcases nv with ⟨n, a⟩
      rcases a with q | q | _
      · simp only [Option.some.injEq, Prod.mk.injEq] at hf
        rw [← hf.1, ← hf.2]
        exact hmem
      · exact absurd hf (by simp)
      · exact absurd hf (by simp)
    · intro hmem
      exact ⟨(name, Attr.pub p), hmem, rfl⟩
  · intro c name s
    unfold MultiSubscriber.get_event_definitions
    rw [List.mem_filterMap]
    constructor
    · rintro ⟨nv, hmem, hf⟩
      rcases nv with ⟨n, a⟩
      rcases a with q | q | _
      · exact absurd hf (by simp)
      · simp only [Option.some.injEq, Prod.mk.injEq] at hf
        rw [← hf.1, ← hf.2]
        exact hmem
      · exact absurd hf (by simp)
    · intro hmem
      exact ⟨(name, Attr.sub s), hmem, rfl⟩

theorem getitemDefault_fst {α : Type} (m : List (Nat × α)) (k : Nat) (dflt : α) :
    (getitemDefault m k dflt).1 = (listLookup m k).getD dflt := by
  unfold getitemDefault
  cases h : listLookup m k <;> simp [h]

theorem listLookup_append_self {α : Type} (m : List (Nat × α)) (k : Nat) (x : α)
    (h : listLookup m k = none) : listLookup (m ++ [(k, x)]) k = some x := by
  induction m with
  | nil => simp [listLookup]
  | cons kv rest ih =>
    unfold listLookup at h ⊢
    by_cases hk : kv.1 = k
    · rw [if_pos hk] at h
      exact absurd h (by simp)
    · rw [if_neg hk] at h
      rw [List.cons_append, show ((kv :: (rest ++ [(k, x)])) : List (Nat × α)) =
        kv :: (rest ++ [(k, x)]) from rfl]
      show (if kv.1 = k then some kv.2 else listLookup (rest ++ [(k, x)]) k) = some x
      rw [if_neg hk]
      exact ih h

theorem getitemDefault_lookup {α : Type} (m : List (Nat × α)) (k : Nat) (dflt : α) :
    listLookup (getitemDefault m k dflt).2 k = some ((getitemDefault m k dflt).1) := by
  unfold getitemDefault
  cases h : listLookup m k with
  | none => simpa using listLookup_append_self m k dflt h
  | some v => simpa using h

theorem assocSet_lookup_some {α : Type} (m : List (Nat × α)) (k : Nat) (v w : α)
    (h : listLookup m k = some w) : listLookup (assocSet m k v) k = some v := by
  induction m with
  | nil => simp [listLookup] at h
  | cons kv rest ih =>
    unfold listLookup at h
    unfold assocSet
    by_cases hk : kv.1 = k
    · rw [List.map_cons, if_pos hk]
      show (if k = k then some v else _) = some v
      rw [if_pos rfl]
    · rw [List.map_cons, if_neg hk]
      rw [if_neg hk] at h
      show (if kv.1 = k then some kv.2 else listLookup (assocSet rest k v) k) = some v
      rw [if_neg hk]
      exact ih h

open EventSubscription in
theorem _subscribe_oid (d : EventSubscription) (p : PublisherObj)
    (subscriber : Option Nat) (fid : Nat) (rand : ℚ) (lid : Nat) (p1 : PublisherObj)
    (he : _subscribe d p subscriber fid rand = .ok (lid, p1)) : p1.oid = p.oid := by
  unfold _subscribe at he
  split at he
  · exact absurd he (by simp)
  · split at he
    · exact absurd he (by simp)
    · rw [Except.ok.injEq, Prod.mk.injEq] at he
      rw [← he.2]

open EventSubscription in
theorem subscribeAux_oid (d : EventSubscription) (subscriber : Option Nat)
    (rands : Nat → ℚ) :
    ∀ (tags : List TagValue) (p : PublisherObj) (fresh i : Nat)
      (ls : List Nat) (p2 : PublisherObj) (f2 : Nat),
      subscribeAux d subscriber rands tags p fresh i = .ok (ls, p2, f2) →
      p2.oid = p.oid := by
  intro tags
  induction tags with
  | nil =>
    intro p fresh i ls p2 f2 he
    rw [show subscribeAux d subscriber rands [] p fresh i = .ok ([], p, fresh) from rfl,
      Except.ok.injEq, Prod.mk.injEq, Prod.mk.injEq] at he
    rw [← he.2.1]
  | cons t ts ih =>
    intro p fresh i ls p2 f2 he
    unfold subscribeAux at he
    cases h1 : _subscribe d p subscriber fresh (rands i) with
    | error e => rw [h1] at he; exact absurd he (by simp)
    | ok pr =>
      rw [h1] at he
      dsimp only at he
      cases h2 : subscribeAux d subscriber rands ts pr.2 (fresh + 1) (i + 1) with
      | error e => rw [h2] at he; exact absurd he (by simp)
      | ok tr =>
        rw [h2] at he
        dsimp only at he
        rw [Except.ok.injEq, Prod.mk.injEq, Prod.mk.injEq] at he
        have hmid := ih pr.2 (fresh + 1) (i + 1) tr.1 tr.2.1 tr.2.2
          (by rw [h2])
        rw [← he.2.1]
        exact hmid.trans (_subscribe_oid d p subscriber fresh (rands i) pr.1 pr.2
          (by rw [h1]))

theorem add_subscription_already (h : EventSubscription.HashFn) (ms : MSState)
    (d : EventSubscription) (p : PublisherObj) (fresh : Nat) (rands : Nat → ℚ)
    (v : List (EventSubscription × List Nat))
    (hdefs : (ms.defs.any fun w => pyEqSub w d) = true)
    (hlk : listLookup ms.subscribers p.oid = some v)
    (hkey : innerHasKey v d = true) :
    MultiSubscriber.add_subscription h ms d p fresh rands = .ok (ms, p, fresh, false) := by
  unfold MultiSubscriber.add_subscription
  have h1 : (!(ms.defs.any fun w => pyEqSub w d)) = false := by rw [hdefs]; rfl
  have hgi : getitemDefault ms.subscribers p.oid [] = (v, ms.subscribers) := by
    unfold getitemDefault
    rw [hlk]
  rw [h1, hgi]
  dsimp only
  rw [hkey]
  rfl

theorem add_subscription_idempotent (h : EventSubscription.HashFn) (ms : MSState)
    (d : EventSubscription) (p : PublisherObj) (fresh : Nat) (rands : Nat → ℚ)
    (ms1 : MSState) (p1 : PublisherObj) (f1 : Nat) (b : Bool)
    (hnew : innerHasKey ((listLookup ms.subscribers p.oid).getD []) d = false)
    (hok : MultiSubscriber.add_subscription h ms d p fresh rands = .ok (ms1, p1, f1, b)) :
    b = true ∧
    (∀ rands2 : Nat → ℚ, MultiSubscriber.add_subscription h ms1 d p1 f1 rands2 =
      .ok (ms1, p1, f1, false)) ∧
    ((listLookup ms1.subscribers p1.oid).getD []).countP (fun e => pyEqSub e.1 d) = 1 := by
  have hnew2 : innerHasKey (getitemDefault ms.subscribers p.oid []).1 d = false := by
    rw [getitemDefault_fst]
    exact hnew
  unfold MultiSubscriber.add_subscription at hok
  split at hok
  · exact absurd hok (by simp)
  · rename_i hdefs
    dsimp only at hok
    rw [hnew2] at hok
    rw [if_neg (by simp)] at hok
    cases hsub : EventSubscription.subscribe h d p (some ms.oid) fresh rands with
    | error e =>
      rw [hsub] at hok
      exact absurd hok (by simp)
    | ok tr =>
      rw [hsub] at hok
      dsimp only at hok
      rw [Except.ok.injEq, Prod.mk.injEq, Prod.mk.injEq, Prod.mk.injEq] at hok
      obtain ⟨hms1, hp1, hf1, hb⟩ := hok
      subst hms1
      subst hp1
      subst hf1
      subst hb
      have hany : (ms.defs.any fun w => pyEqSub w d) = true := by
        cases hB : (ms.defs.any fun w => pyEqSub w d) with
        | false => exact absurd (by rw [hB]; rfl) hdefs
        | true => rfl
      have hpoid : tr.2.1.oid = p.oid :=
        subscribeAux_oid d (some ms.oid) rands (EventSubscription._get_event_tags h d)
          p fresh 0 tr.1 tr.2.1 tr.2.2 hsub
      have hlk1 : listLookup
          (assocSet (getitemDefault ms.subscribers p.oid []).2 p.oid
            ((getitemDefault ms.subscribers p.oid []).1 ++ [(d, tr.1)])) p.oid =
          some ((getitemDefault ms.subscribers p.oid []).1 ++ [(d, tr.1)]) :=
        assocSet_lookup_some _ p.oid _ _ (getitemDefault_lookup ms.subscribers p.oid [])
      have hkey1 : innerHasKey
          ((getitemDefault ms.subscribers p.oid []).1 ++ [(d, tr.1)]) d = true := by
        unfold innerHasKey
        rw [List.any_append]
        have : (([(d, tr.1)] : List (EventSubscription × List Nat)).any
            fun e => pyEqSub e.1 d) = true := by
          simp [pyEqSub]
        rw [this, Bool.or_true]
      refine ⟨rfl, ?_, ?_⟩
      · intro rands2
        exact add_subscription_already h _ d tr.2.1 tr.2.2 rands2 _ hany
          (by rw [hpoid]; exact hlk1) hkey1
      · show ((listLookup _ tr.2.1.oid).getD []).countP _ = 1
        rw [hpoid, hlk1]
        show ((getitemDefault ms.subscribers p.oid []).1 ++ [(d, tr.1)]).countP _ = 1
        rw [List.countP_append]
        have hz : ((getitemDefault ms.subscribers p.oid []).1).countP
            (fun e => pyEqSub e.1 d) = 0 := by
          rw [List.countP_eq_zero]
          intro a ha
          intro hcontra
          have : innerHasKey (getitemDefault ms.subscribers p.oid []).1 d = true := by
            unfold innerHasKey
            rw [List.any_eq_true]
            exact ⟨a, ha, hcontra⟩
          rw [hnew2] at this
          exact absurd this (by simp)
        rw [hz]
        simp [List.countP_cons, pyEqSub]

theorem add_subscription_idempotent_witness :
    innerHasKey ((listLookup c5ms.subscribers c5p.oid).getD []) c5d = false ∧
    MultiSubscriber.add_subscription c5h c5ms c5d c5p 0 c5r = .ok (c5ms1, c5p1, 1, true) ∧
    (true = true ∧
      (∀ rands2 : Nat → ℚ, MultiSubscriber.add_subscription c5h c5ms1 c5d c5p1 1 rands2 =
        .ok (c5ms1, c5p1, 1, false)) ∧
      ((listLookup c5ms1.subscribers c5p1.oid).getD []).countP
        (fun e => pyEqSub e.1 c5d) = 1) :=
  ⟨by decide, by rfl,
    add_subscription_idempotent c5h c5ms c5d c5p 0 c5r c5ms1 c5p1 1 true
      (by decide) (by rfl)⟩

/-- C10: remove_subscription with a declared descriptor and a publisher for
which nothing is registered returns as a no-op, but the defaultdict
membership test has inserted an empty inner dict under the publisher: the
key set of the subscribers map grows by that publisher. -/
theorem remove_subscription_grows_keys (h : EventSubscription.HashFn)
    (ms : MSState) (d : EventSubscription) (p : PublisherObj)
    (hdef : (ms.defs.any fun v => pyEqSub v d) = true)
    (habs : listLookup ms.subscribers p.oid = none) :
    MultiSubscriber.remove_subscription h ms d p =
      .ok ({ ms with subscribers := ms.subscribers ++ [(p.oid, [])] }, p) ∧
    ms.subscribers ++ [(p.oid, [])] ≠ ms.subscribers ∧
    (ms.subscribers ++ [(p.oid, [])]).map Prod.fst =
      ms.subscribers.map Prod.fst ++ [p.oid] := by
  refine ⟨?_, ?_, by simp⟩
  · unfold MultiSubscriber.remove_subscription
    have h1 : (!(ms.defs.any fun v => pyEqSub v d)) = false := by rw [hdef]; rfl
    have hgi : getitemDefault ms.subscribers p.oid [] =
        ([], ms.subscribers ++ [(p.oid, [])]) := by
      unfold getitemDefault
      rw [habs]
    rw [h1, hgi]
    rfl
  · intro heq
    have := congrArg List.length heq
    simp at this

theorem remove_subscription_grows_keys_witness :
    (c10ms.defs.any fun v => pyEqSub v c10d) = true ∧
    listLookup c10ms.subscribers c10p.oid = none ∧
    (MultiSubscriber.remove_subscription c10h c10ms c10d c10p =
      .ok ({ c10ms with subscribers := c10ms.subscribers ++ [(c10p.oid, [])] }, c10p) ∧
    c10ms.subscribers ++ [(c10p.oid, [])] ≠ c10ms.subscribers ∧
    (c10ms.subscribers ++ [(c10p.oid, [])]).map Prod.fst =
      c10ms.subscribers.map Prod.fst ++ [c10p.oid]) :=
  ⟨by decide, by decide,
    remove_subscription_grows_keys c10h c10ms c10d c10p (by decide) (by decide)⟩

end FlowEvents
